import Mathlib

/-!
Verification of the go-recipe command manager (github.com/Tomlord1122/go-recipe).

This file gives a shallow embedding of the command-execution engine
(`pkg/update/executor.go`), the application state machine
(`pkg/update/update.go`) and the data model (`pkg/model/model.go`), and
proves or refutes the frozen specification claims about them.

Modelling conventions:
* Go strings are modelled as `List Char` (`Str`); byte-level operations on
  ASCII data coincide with character-level operations.
* Side effects (environment lookups, `os.Stat`, starting and waiting for
  child processes, file creation) are supplied by explicit environment
  records (`ExecEnv`, `UIEnv`) whose fields stand for the corresponding OS
  calls.  A `Bool` component of a strategy's return value records whether a
  child process was actually started (`cmd.Run` / `cmd.Start` reached).
* Wall-clock timestamps (`Result.StartTime`/`EndTime`) are not modelled;
  the two time-derived lines of `FormatOutput` are abstracted as the
  environment's `timeHeader` text, since no claim inspects them.
-/

namespace GoRecipe

/-- Decidable equality for `Except`, so that concrete runs of the fallible
functions below can be checked by `decide`. -/
instance {ε α : Type} [DecidableEq ε] [DecidableEq α] : DecidableEq (Except ε α)
  | Except.ok a, Except.ok b =>
    if h : a = b then Decidable.isTrue (congrArg Except.ok h)
    else Decidable.isFalse (fun hh => h (Except.ok.inj hh))
  | Except.ok _, Except.error _ => Decidable.isFalse (fun hh => Except.noConfusion hh)
  | Except.error _, Except.ok _ => Decidable.isFalse (fun hh => Except.noConfusion hh)
  | Except.error a, Except.error b =>
    if h : a = b then Decidable.isTrue (congrArg Except.error h)
    else Decidable.isFalse (fun hh => h (Except.error.inj hh))

/-- Go strings, modelled as lists of characters. -/
abbrev Str := List Char

/-- Characters treated as white space by Go's `unicode.IsSpace` in the ASCII
range (space, tab, newline, vertical tab, form feed, carriage return). -/
def isSpaceGo (c : Char) : Bool :=
  c = ' ' ∨ c = '\t' ∨ c = '\n' ∨ c = '\x0b' ∨ c = '\x0c' ∨ c = '\r'

/-- Go `strings.TrimSpace` (ASCII range). -/
def trimSpace (s : Str) : Str :=
  ((s.dropWhile isSpaceGo).reverse.dropWhile isSpaceGo).reverse

/-- Go `strings.ToLower` (ASCII range). -/
def toLowerStr (s : Str) : Str := s.map Char.toLower

/-- Folding step for `fieldsGo`: the accumulator is (finished words, current
word being collected from the left). -/
def fieldsStep (c : Char) (acc : List Str × Str) : List Str × Str :=
  if isSpaceGo c then
    (if acc.2 = [] then acc.1 else acc.2 :: acc.1, [])
  else (acc.1, c :: acc.2)

/-- Go `strings.Fields`: split around runs of white space, dropping empty
words. -/
def fieldsGo (s : Str) : List Str :=
  let r := s.foldr fieldsStep ([], [])
  if r.2 = [] then r.1 else r.2 :: r.1

/-- Split a string at every occurrence of the character `sep`, keeping empty
pieces; this is Go `strings.Split` with a one-character separator. -/
def splitOnChar (sep : Char) (s : Str) : List Str :=
  let r := s.foldr
    (fun c (acc : Str × List Str) =>
      if c = sep then ([], acc.1 :: acc.2) else (c :: acc.1, acc.2))
    ([], [])
  r.1 :: r.2

/-- Go `strings.Contains` (character-level). -/
def containsStr : Str → Str → Bool
  | [], pat => pat = []
  | c :: rest, pat => pat.isPrefixOf (c :: rest) ∨ containsStr rest pat

/-- Worker for `replaceAll`; the `fuel` argument only forces structural
recursion and is initialised to the length of the subject string, which every
step decreases by at least one character. -/
def replaceAllAux (pat rep : Str) : Nat → Str → Str
  | _, [] => []
  | 0, s => s
  | fuel + 1, c :: rest =>
    if pat ≠ [] ∧ pat.isPrefixOf (c :: rest) then
      rep ++ replaceAllAux pat rep fuel ((c :: rest).drop pat.length)
    else c :: replaceAllAux pat rep fuel rest

/-- Go `strings.ReplaceAll` for a non-empty pattern: replace the leftmost
occurrences, scanning left to right without overlap.  (The engine only calls
this with the non-empty pattern `${cwd}`.) -/
def replaceAll (pat rep s : Str) : Str := replaceAllAux pat rep s.length s

/-- Special shell parameter characters of Go `os.Expand` (`isShellSpecialVar`). -/
def isShellSpecialVar (c : Char) : Bool :=
  c = '*' ∨ c = '#' ∨ c = '$' ∨ c = '@' ∨ c = '!' ∨ c = '?' ∨ c = '-' ∨
    ('0' ≤ c ∧ c ≤ '9')

/-- Alphanumeric characters of Go `os.Expand` (`isAlphaNum`). -/
def isAlphaNumGo (c : Char) : Bool :=
  c = '_' ∨ ('0' ≤ c ∧ c ≤ '9') ∨ ('a' ≤ c ∧ c ≤ 'z') ∨ ('A' ≤ c ∧ c ≤ 'Z')

/-- Go `os.Expand`'s `getShellName`: given the text following a dollar sign,
return the referenced variable name and the number of characters consumed. -/
def getShellName (s : Str) : Str × Nat :=
  match s with
  | [] => ([], 0)
  | '{' :: rest =>
    match rest with
    | c1 :: c2 :: _ =>
      if isShellSpecialVar c1 ∧ c2 = '}' then ([c1], 3)
      else
        match rest.findIdx? (fun c => c = '}') with
        | Option.none => ([], 1)
        | some 0 => ([], 2)
        | some j => (rest.take j, j + 2)
    | _ =>
      match rest.findIdx? (fun c => c = '}') with
      | Option.none => ([], 1)
      | some 0 => ([], 2)
      | some j => (rest.take j, j + 2)
  | c :: _ =>
    if isShellSpecialVar c then ([c], 1)
    else
      let name := s.takeWhile isAlphaNumGo
      (name, name.length)

/-- Worker for `goExpand`; the `fuel` argument only forces structural
recursion and is initialised to the length of the subject string, which every
step decreases by at least one character. -/
def goExpandAux (mapping : Str → Str) : Nat → Str → Str
  | _, [] => []
  | 0, s => s
  | fuel + 1, c :: rest =>
    if c = '$' ∧ rest ≠ [] then
      let r := getShellName rest
      if r.1 = [] ∧ r.2 > 0 then goExpandAux mapping fuel (rest.drop r.2)
      else if r.1 = [] then '$' :: goExpandAux mapping fuel rest
      else mapping r.1 ++ goExpandAux mapping fuel (rest.drop r.2)
    else c :: goExpandAux mapping fuel rest

/-- Go `os.Expand` (hence `os.ExpandEnv` when `mapping` is `os.Getenv`):
replace `$name` and `${name}` references using `mapping`; invalid syntax is
consumed, and a dollar sign not followed by anything further is kept. -/
def goExpand (mapping : Str → Str) (s : Str) : Str := goExpandAux mapping s.length s

/-- Stack step of the lexical path-cleaning algorithm: push ordinary
segments, resolve `..` against the stack (dropping it at the root, keeping it
at the front of a relative path). -/
def cleanStack (rooted : Bool) (acc : List Str) : List Str → List Str
  | [] => acc.reverse
  | seg :: rest =>
    if seg = "..".data then
      match acc with
      | [] =>
        if rooted then cleanStack rooted [] rest
        else cleanStack rooted ["..".data] rest
      | top :: accRest =>
        if top = "..".data then cleanStack rooted (seg :: acc) rest
        else cleanStack rooted accRest rest
    else cleanStack rooted (seg :: acc) rest

/-- Go `path/filepath.Clean` on Unix, in the equivalent segment-stack
formulation: drop empty and `.` segments, resolve `..`, and restore the
leading slash of a rooted path; the empty result is `.` (or `/` if rooted). -/
def goClean (p : Str) : Str :=
  if p = [] then ".".data
  else
    let rooted := decide (p.head? = some '/')
    let segs := (splitOnChar '/' p).filter
      (fun s => decide (s ≠ []) ∧ decide (s ≠ ".".data))
    let out := cleanStack rooted [] segs
    if rooted then '/' :: List.intercalate "/".data out
    else if out = [] then ".".data
    else List.intercalate "/".data out

/-- Go `path/filepath.Join` for two elements: drop empty elements, join the
rest with a slash and clean the result; all-empty input gives the empty
path. -/
def goJoin (a b : Str) : Str :=
  let elems := [a, b].filter (fun e => decide (e ≠ []))
  if elems = [] then []
  else goClean (List.intercalate "/".data elems)

/-- Go `path/filepath.IsAbs` on Unix. -/
def isAbsPath (p : Str) : Bool := p.head? = some '/'

/-- A catalog entry (`model.Command`).  The first seven fields are those of
`pkg/model/model.go`; the execution-mode and working-directory fields
(`useShell`, `interactive`, `workingDirMode`, `workingDirPath`) do not appear
in the `model.go` shipped under `src/` (an older revision) but are required
by `executor.go` and `update.go` and are specified in the spec's data model,
so they are taken from those uses.  `lastRun` is an abstract clock reading
standing for the `time.Time` field. -/
structure Command where
  id : Str
  name : Str
  command : Str
  category : Str
  description : Str
  tags : List Str
  lastRun : Nat
  useShell : Bool
  interactive : Bool
  workingDirMode : Str
  workingDirPath : Str
deriving DecidableEq, Inhabited, Repr

/-- The concrete command line handed to the OS: either a login-shell
invocation `exec.Command(shell, "-lc", text)` or a split
`exec.Command(parts[0], parts[1:]...)`. -/
inductive CmdLine
  | shell (shellPath : Str) (text : Str)
  | argv (prog : Str) (args : List Str)
deriving DecidableEq, Repr

/-- The error reported by `cmd.Run()`: either an `*exec.ExitError` carrying
the child's exit status, or any other error (e.g. executable not found). -/
inductive RunError
  | exit (code : Int)
  | other (msg : Str)
deriving DecidableEq, Repr

/-- What one `cmd.Run()` call produces: the bytes written to standard output
and standard error, and the error value (`Option.none` on clean exit). -/
structure RunOutcome where
  stdout : Str
  stderr : Str
  err : Option RunError
deriving DecidableEq, Repr

/-- The OS-facing effects used by the executor, supplied explicitly:
environment lookup, home directory, current directory, the directory check
performed via `os.Stat`, running a command to completion (`cmd.Run`, given
the command line and the `Dir` field, empty meaning inherit), and starting
without waiting (`cmd.Start` / `pty.Start`, `Option.none` meaning success). -/
structure ExecEnv where
  getenv : Str → Str
  userHomeDir : Except Str Str
  getwd : Except Str Str
  statIsDir : Str → Bool
  run : CmdLine → Str → RunOutcome
  start : CmdLine → Str → Option Str
  ptyStart : CmdLine → Str → Option Str

/-- The error taxonomy of a strategy result: the literal `empty command`
error, a working-directory resolution error, a failure reported by
`cmd.Run`, or a failure of `cmd.Start`/`pty.Start`. -/
inductive ExecError
  | emptyCommand
  | pathError (msg : Str)
  | runFailure (e : RunError)
  | startFailure (msg : Str)
deriving DecidableEq, Repr

/-- `update.Result` without the two wall-clock timestamp fields (real time is
outside the embedding; no claim inspects the timestamps themselves). -/
structure Result where
  command : Command
  output : Str
  error : Option ExecError
  exitCode : Int
deriving DecidableEq, Repr

/-- Placeholder expansion of `executor.go` (`expandDirPlaceholders`): first
`os.ExpandEnv`, then `~` expansion against the home directory, then `${cwd}`
substitution with `os.Getwd` — but only if the literal token survived
`os.ExpandEnv`. -/
def expandDirPlaceholders (env : ExecEnv) (p : Str) : Except Str Str :=
  let p := goExpand env.getenv p
  let afterTilde : Except Str Str :=
    if "~".data.isPrefixOf p then
      match env.userHomeDir with
      | Except.error e => Except.error ("failed to expand ~: ".data ++ e)
      | Except.ok home =>
        if p = "~".data then Except.ok home
        else if "~/".data.isPrefixOf p then Except.ok (goJoin home (p.drop 2))
        else Except.ok p
    else Except.ok p
  match afterTilde with
  | Except.error e => Except.error e
  | Except.ok p =>
    if containsStr p ("$\x7bcwd\x7d").data then
      match env.getwd with
      | Except.error e =>
        Except.error ("failed to resolve current working directory: ".data ++ e)
      | Except.ok cwd => Except.ok (replaceAll ("$\x7bcwd\x7d").data cwd p)
    else Except.ok p

/-- Working-directory resolution of `executor.go` (`resolveWorkingDir`):
empty result means "inherit the current working directory". -/
def resolveWorkingDir (env : ExecEnv) (command : Command) : Except Str Str :=
  let mode := toLowerStr (trimSpace command.workingDirMode)
  if mode = [] ∨ mode = "current".data then Except.ok []
  else if mode = "home".data then
    match env.userHomeDir with
    | Except.error e => Except.error ("failed to resolve home directory: ".data ++ e)
    | Except.ok home => Except.ok home
  else if mode = "absolute".data then
    if trimSpace command.workingDirPath = [] then
      Except.error ("working directory path is required when mode is \x27absolute\x27").data
    else
      match expandDirPlaceholders env command.workingDirPath with
      | Except.error e => Except.error e
      | Except.ok expanded =>
        if ¬ isAbsPath expanded then
          Except.error (("working directory must be an absolute path: ").data ++ expanded)
        else if ¬ env.statIsDir expanded then
          Except.error (("working directory does not exist or is not a directory: ").data ++ expanded)
        else Except.ok expanded
  else Except.error (("unknown WorkingDirMode: ").data ++ mode)

/-- Command-line construction of `ExecuteCommand` (executor.go lines 44-65):
the shell is used when `UseShell` alone is set; otherwise the text is split
on white space, zero tokens being the empty-command error. -/
def syncCmdLine (env : ExecEnv) (command : Command) : Except ExecError CmdLine :=
  if command.useShell then
    let shell := env.getenv ("SHELL").data
    Except.ok (CmdLine.shell (if shell = [] then "bash".data else shell) command.command)
  else
    match fieldsGo command.command with
    | [] => Except.error ExecError.emptyCommand
    | p :: rest => Except.ok (CmdLine.argv p rest)

/-- Command-line construction of `ExecuteCommandStreaming` (executor.go lines
129-143): the shell is used when `UseShell` or `Interactive` is set. -/
def streamCmdLine (env : ExecEnv) (command : Command) : Except ExecError CmdLine :=
  if command.useShell ∨ command.interactive then
    let shell := env.getenv ("SHELL").data
    Except.ok (CmdLine.shell (if shell = [] then "bash".data else shell) command.command)
  else
    match fieldsGo command.command with
    | [] => Except.error ExecError.emptyCommand
    | p :: rest => Except.ok (CmdLine.argv p rest)

/-- Command-line construction of `ExecuteCommandInteractiveAttached`
(executor.go lines 178-191). -/
def attachedCmdLine (env : ExecEnv) (command : Command) : Except ExecError CmdLine :=
  if command.useShell ∨ command.interactive then
    let shell := env.getenv ("SHELL").data
    Except.ok (CmdLine.shell (if shell = [] then "bash".data else shell) command.command)
  else
    match fieldsGo command.command with
    | [] => Except.error ExecError.emptyCommand
    | p :: rest => Except.ok (CmdLine.argv p rest)

/-- Command-line construction of `StartInteractiveProcess` (executor.go lines
220-233). -/
def startProcCmdLine (env : ExecEnv) (command : Command) : Except ExecError CmdLine :=
  if command.useShell ∨ command.interactive then
    let shell := env.getenv ("SHELL").data
    Except.ok (CmdLine.shell (if shell = [] then "bash".data else shell) command.command)
  else
    match fieldsGo command.command with
    | [] => Except.error ExecError.emptyCommand
    | p :: rest => Except.ok (CmdLine.argv p rest)

/-- Command-line construction of `StartInteractivePTY` (executor.go lines
251-264). -/
def ptyCmdLine (env : ExecEnv) (command : Command) : Except ExecError CmdLine :=
  if command.useShell ∨ command.interactive then
    let shell := env.getenv ("SHELL").data
    Except.ok (CmdLine.shell (if shell = [] then "bash".data else shell) command.command)
  else
    match fieldsGo command.command with
    | [] => Except.error ExecError.emptyCommand
    | p :: rest => Except.ok (CmdLine.argv p rest)

/-- Output combination of `ExecuteCommand` (executor.go lines 100-106):
stderr appended after stdout, with a separating newline only if stdout was
non-empty. -/
def combineOutput (stdout stderr : Str) : Str :=
  if stderr.length > 0 then
    (if stdout ≠ [] then stdout ++ "\n".data else stdout) ++ stderr
  else stdout

/-- Synchronous capture (`ExecuteCommand`).  The `Bool` records whether a
child process was started (`cmd.Run` reached). -/
def ExecuteCommand (env : ExecEnv) (command : Command) : Result × Bool :=
  if trimSpace command.command = [] then
    (⟨command, [], some ExecError.emptyCommand, -1⟩, false)
  else
    match syncCmdLine env command with
    | Except.error e => (⟨command, [], some e, -1⟩, false)
    | Except.ok cl =>
      match resolveWorkingDir env command with
      | Except.error msg => (⟨command, [], some (ExecError.pathError msg), -1⟩, false)
      | Except.ok dir =>
        let out := env.run cl dir
        let exitCode : Int :=
          match out.err with
          | Option.none => 0
          | some (RunError.exit c) => c
          | some (RunError.other _) => -1
        (⟨command, combineOutput out.stdout out.stderr,
          out.err.map ExecError.runFailure, exitCode⟩, true)

/-- Streaming capture (`ExecuteCommandStreaming`): stdout and stderr go to
the caller-supplied sink, the result's output field is left empty.  The
`Bool` records whether a child process was started. -/
def ExecuteCommandStreaming (env : ExecEnv) (command : Command) : Result × Bool :=
  if trimSpace command.command = [] then
    (⟨command, [], some ExecError.emptyCommand, -1⟩, false)
  else
    match streamCmdLine env command with
    | Except.error e => (⟨command, [], some e, -1⟩, false)
    | Except.ok cl =>
      match resolveWorkingDir env command with
      | Except.error msg => (⟨command, [], some (ExecError.pathError msg), -1⟩, false)
      | Except.ok dir =>
        let out := env.run cl dir
        let exitCode : Int :=
          match out.err with
          | Option.none => 0
          | some (RunError.exit c) => c
          | some (RunError.other _) => -1
        (⟨command, [], out.err.map ExecError.runFailure, exitCode⟩, true)

/-- Terminal-attached execution (`ExecuteCommandInteractiveAttached`):
stdin/stdout/stderr bound to the invoking terminal; result output empty. -/
def ExecuteCommandInteractiveAttached (env : ExecEnv) (command : Command) : Result × Bool :=
  if trimSpace command.command = [] then
    (⟨command, [], some ExecError.emptyCommand, -1⟩, false)
  else
    match attachedCmdLine env command with
    | Except.error e => (⟨command, [], some e, -1⟩, false)
    | Except.ok cl =>
      match resolveWorkingDir env command with
      | Except.error msg => (⟨command, [], some (ExecError.pathError msg), -1⟩, false)
      | Except.ok dir =>
        let out := env.run cl dir
        let exitCode : Int :=
          match out.err with
          | Option.none => 0
          | some (RunError.exit c) => c
          | some (RunError.other _) => -1
        (⟨command, [], out.err.map ExecError.runFailure, exitCode⟩, true)

/-- Start-process strategy (`StartInteractiveProcess`): returns the started
command line and resolved directory (standing for the `*exec.Cmd` handle) or
an error; note that, unlike the three strategies above, there is no
whole-text empty-command pre-check.  The `Bool` records whether a child
process was started. -/
def StartInteractiveProcess (env : ExecEnv) (command : Command) :
    Except ExecError (CmdLine × Str) × Bool :=
  match startProcCmdLine env command with
  | Except.error e => (Except.error e, false)
  | Except.ok cl =>
    match resolveWorkingDir env command with
    | Except.error msg => (Except.error (ExecError.pathError msg), false)
    | Except.ok dir =>
      match env.start cl dir with
      | some e => (Except.error (ExecError.startFailure e), false)
      | Option.none => (Except.ok (cl, dir), true)

/-- PTY strategy (`StartInteractivePTY`): starts the command attached to a
pseudo-terminal whose output is copied to the sink; like
`StartInteractiveProcess` it has no whole-text empty-command pre-check. -/
def StartInteractivePTY (env : ExecEnv) (command : Command) :
    Except ExecError (CmdLine × Str) × Bool :=
  match ptyCmdLine env command with
  | Except.error e => (Except.error e, false)
  | Except.ok cl =>
    match resolveWorkingDir env command with
    | Except.error msg => (Except.error (ExecError.pathError msg), false)
    | Except.ok dir =>
      match env.ptyStart cl dir with
      | some e => (Except.error (ExecError.startFailure e), false)
      | Option.none => (Except.ok (cl, dir), true)

/-- Rendering of a strategy error's `Error()` text, for `FormatOutput`. -/
def execErrorText : ExecError → Str
  | ExecError.emptyCommand => "empty command".data
  | ExecError.pathError msg => msg
  | ExecError.runFailure (RunError.exit c) => "exit status ".data ++ (toString c).data
  | ExecError.runFailure (RunError.other msg) => msg
  | ExecError.startFailure msg => msg

/-- Result report of `executor.go` (`FormatOutput`).  `timeHeader` stands for
the `Started:` and `Duration:` lines, which render the wall-clock timestamps
omitted from the embedding. -/
def FormatOutput (timeHeader : Str) (result : Result) : Str :=
  ("Command: ").data ++ result.command.command ++ "\n".data ++
  timeHeader ++
  ("Exit Code: ").data ++ (toString result.exitCode).data ++ "\n".data ++
  ("\n--- Output ---\n").data ++
  result.output ++
  (match result.error with
   | some e => ("\n--- Error ---\n").data ++ execErrorText e
   | Option.none => [])

/-- The text-input modes of `model.AppMode`. -/
inductive AppMode
  | normal
  | filterInput
  | formEdit
deriving DecidableEq, Repr

/-- The application state (`model.Model`).  `executionLogPath` and
`executionLogOffset` do not appear in the `model.go` under `src/` (an older
revision) but are required by `update.go`'s streaming session handling, so
they are taken from those uses; the offset is the byte offset into the
transient sink and is non-negative by construction (`int64` in the source).
Form fields are indexed by `Int` mirroring the `FormField` iota constants. -/
structure UIModel where
  allCommands : List Command
  visibleCommands : List Command
  categories : List Str
  selectedIndex : Int
  filterText : Str
  activeCategory : Str
  runInBackground : Bool
  showHelp : Bool
  showForm : Bool
  executing : Bool
  executionOutput : Str
  executingCommand : Option Command
  outputScrollPosition : Int
  formCommand : Command
  activeFormField : Int
  editingFormField : Bool
  formInputBuffer : Str
  currentMode : AppMode
  inputBuffer : Str
  error : Str
  width : Int
  height : Int
  executionLogPath : Str
  executionLogOffset : Nat
deriving DecidableEq, Repr

/-- The effect value returned with a state transition (`tea.Cmd`): nothing,
quit the program, a closure that will deliver `ExecuteCommandMsg`, or the
next stream-poll tick. -/
inductive TeaCmd
  | none
  | quit
  | emitExecute (c : Command)
  | tick
deriving DecidableEq, Repr

/-- The effect of `executeCommand` (update.go): nothing, the detached
goroutine streaming to a background log file, opening a macOS Terminal
window, or the batched runner-plus-poll for a foreground streaming run. -/
inductive ExecEffect
  | none
  | backgroundRun (c : Command) (logPath : Str)
  | openTerminal (c : Command)
  | runAndPoll (c : Command) (tmpPath : Str)
deriving DecidableEq, Repr

/-- The external collaborators used by the state machine, supplied
explicitly: the Unix-seconds clock used for new identifiers, the storage
collaborator (`config.SaveConfig`, `Option.none` on success, and
`config.GetCategories`), background-log/temp-file creation, the macOS test,
and the `Started:`/`Duration:` lines of the result report (wall-clock
rendering, outside the embedding). -/
structure UIEnv where
  nowUnix : Nat
  saveConfig : List Command → Option Str
  getCategories : List Command → List Str
  createBackgroundLog : Command → Except Str Str
  createTemp : Except Str Str
  isDarwin : Bool
  timeHeader : Str

/-- Form-field indices (`model.FormField` iota constants).  The `model.go`
under `src/` lists five fields; the go-recipe form view edits nine (adding
working-dir mode/path and the two boolean flags), so `fieldCount = 9`.
Modelled from the spec: the four extra constants follow the form view's
field order. -/
def fieldName : Int := 0

def fieldCommand : Int := 1

def fieldCategory : Int := 2

def fieldDescription : Int := 3

def fieldTags : Int := 4

def fieldWorkingDirMode : Int := 5

def fieldWorkingDirPath : Int := 6

def fieldUseShell : Int := 7

def fieldInteractive : Int := 8

def fieldCount : Int := 9

/-- `model.GetFormFieldValue`: the display text of one form field.  Modelled
from the spec for the four fields missing from the `src/` model: the
working-dir fields show their strings and the boolean flags show
`true`/`false`. -/
def getFormFieldValue (m : UIModel) (field : Int) : Str :=
  if field = fieldName then m.formCommand.name
  else if field = fieldCommand then m.formCommand.command
  else if field = fieldCategory then m.formCommand.category
  else if field = fieldDescription then m.formCommand.description
  else if field = fieldTags then List.intercalate (", ").data m.formCommand.tags
  else if field = fieldWorkingDirMode then m.formCommand.workingDirMode
  else if field = fieldWorkingDirPath then m.formCommand.workingDirPath
  else if field = fieldUseShell then
    (if m.formCommand.useShell then "true".data else "false".data)
  else if field = fieldInteractive then
    (if m.formCommand.interactive then "true".data else "false".data)
  else []

/-- `model.SetFormFieldValue`: write the buffered text into the in-progress
record; tags are split on commas, trimmed, empties dropped.  Modelled from
the spec for the four fields missing from the `src/` model: the boolean
flags parse the literal text `true`. -/
def setFormFieldValue (m : UIModel) (field : Int) (value : Str) : UIModel :=
  if field = fieldName then { m with formCommand := { m.formCommand with name := value } }
  else if field = fieldCommand then { m with formCommand := { m.formCommand with command := value } }
  else if field = fieldCategory then { m with formCommand := { m.formCommand with category := value } }
  else if field = fieldDescription then { m with formCommand := { m.formCommand with description := value } }
  else if field = fieldTags then
    { m with formCommand := { m.formCommand with tags :=
        ((splitOnChar ',' value).map trimSpace).filter (fun t => decide (t ≠ [])) } }
  else if field = fieldWorkingDirMode then
    { m with formCommand := { m.formCommand with workingDirMode := value } }
  else if field = fieldWorkingDirPath then
    { m with formCommand := { m.formCommand with workingDirPath := value } }
  else if field = fieldUseShell then
    { m with formCommand := { m.formCommand with useShell := value = "true".data } }
  else if field = fieldInteractive then
    { m with formCommand := { m.formCommand with interactive := value = "true".data } }
  else m

/-- Category/text filtering of `update.go` (`filterCommands`): keep catalog
order, drop entries outside the active category (unless it is empty or
`All`), and, when a filter text is set, entries whose name, command,
description and tags all miss the lower-cased filter. -/
def filterCommands (m : UIModel) : List Command :=
  m.allCommands.filter (fun command =>
    (decide (m.activeCategory = []) ∨ decide (m.activeCategory = "All".data) ∨
      decide (command.category = m.activeCategory)) ∧
    (decide (m.filterText = []) ∨
      (let lowerFilter := toLowerStr m.filterText
       containsStr (toLowerStr command.name) lowerFilter ∨
       containsStr (toLowerStr command.command) lowerFilter ∨
       containsStr (toLowerStr command.description) lowerFilter ∨
       command.tags.any (fun tag => containsStr (toLowerStr tag) lowerFilter))))

/-- An arbitrary command record, used only as the default value of the
(guarded) list indexing that Go performs with checked bounds. -/
def zeroCommand : Command := ⟨[], [], [], [], [], [], 0, false, false, [], []⟩

/-- Replace the first catalog record whose identifier matches the target's
(the loop of `saveFormCommand`, which breaks after the first match); the
`Bool` is Go's `found` flag. -/
def replaceFirstById (target : Command) : List Command → List Command × Bool
  | [] => ([], false)
  | cmd :: rest =>
    if cmd.id = target.id then (target :: rest, true)
    else
      let r := replaceFirstById target rest
      (cmd :: r.1, r.2)

/-- `update.go` `saveFormCommand`: validate name and command text, synthesise
a Unix-timestamp identifier (plus default category and tags) when the record
is new, replace-or-append into the catalog, refresh categories and the
visible list, persist, and leave the form on success. -/
def saveFormCommand (env : UIEnv) (m : UIModel) : UIModel × TeaCmd :=
  if m.formCommand.name = [] ∨ m.formCommand.command = [] then
    ({ m with error := ("Name and Command are required fields").data }, TeaCmd.none)
  else
    let m :=
      if m.formCommand.id = [] then
        let fc := { m.formCommand with id := (toString env.nowUnix).data }
        let fc := if fc.category = [] then { fc with category := "System".data } else fc
        let fc := if fc.tags = [] then { fc with tags := [toLowerStr fc.category] } else fc
        { m with formCommand := fc }
      else m
    let r := replaceFirstById m.formCommand m.allCommands
    let all := if r.2 then r.1 else m.allCommands ++ [m.formCommand]
    let m := { m with allCommands := all }
    let m := { m with categories := env.getCategories m.allCommands }
    let m := { m with visibleCommands := filterCommands m }
    match env.saveConfig m.allCommands with
    | some e => ({ m with error := ("Failed to save config: ").data ++ e }, TeaCmd.none)
    | Option.none => ({ m with showForm := false }, TeaCmd.none)

/-- `update.go` `handleMainKeyPress`: navigation, execute, add/edit/delete,
category cycling, background toggle and filter entry in the main view. -/
def handleMainKeyPress (env : UIEnv) (key : Str) (m : UIModel) : UIModel × TeaCmd :=
  if key = "up".data ∨ key = "k".data then
    (if m.selectedIndex > 0 then { m with selectedIndex := m.selectedIndex - 1 } else m,
     TeaCmd.none)
  else if key = "down".data ∨ key = "j".data then
    (if m.selectedIndex < m.visibleCommands.length - 1 then
       { m with selectedIndex := m.selectedIndex + 1 }
     else m, TeaCmd.none)
  else if key = "enter".data then
    if m.visibleCommands.length > 0 ∧ m.selectedIndex < m.visibleCommands.length then
      (m, TeaCmd.emitExecute (m.visibleCommands.getD m.selectedIndex.toNat zeroCommand))
    else (m, TeaCmd.none)
  else if key = "n".data then
    ({ m with
        showForm := true
        formCommand := { zeroCommand with category := "System".data } }, TeaCmd.none)
  else if key = "e".data then
    (if m.visibleCommands.length > 0 ∧ m.selectedIndex < m.visibleCommands.length then
       { m with
          showForm := true
          formCommand := m.visibleCommands.getD m.selectedIndex.toNat zeroCommand }
     else m, TeaCmd.none)
  else if key = "d".data then
    if m.visibleCommands.length > 0 ∧ m.selectedIndex < m.visibleCommands.length then
      let cmdToDelete := m.visibleCommands.getD m.selectedIndex.toNat zeroCommand
      let m := { m with allCommands :=
        m.allCommands.filter (fun cmd => decide (cmd.id ≠ cmdToDelete.id)) }
      let m := { m with visibleCommands := filterCommands m }
      let m :=
        if m.selectedIndex ≥ m.visibleCommands.length then
          { m with selectedIndex := m.visibleCommands.length - 1 }
        else m
      let m := if m.selectedIndex < 0 then { m with selectedIndex := 0 } else m
      match env.saveConfig m.allCommands with
      | some e => ({ m with error := ("Failed to save config: ").data ++ e }, TeaCmd.none)
      | Option.none => (m, TeaCmd.none)
    else (m, TeaCmd.none)
  else if key = "c".data then
    let m :=
      match m.categories.findIdx? (fun c => decide (c = m.activeCategory)) with
      | some i =>
        if i < m.categories.length - 1 then
          { m with activeCategory := m.categories.getD (i + 1) [] }
        else { m with activeCategory := m.categories.getD 0 [] }
      | Option.none =>
        if m.categories.length > 0 then
          { m with activeCategory := m.categories.getD 0 [] }
        else m
    ({ m with visibleCommands := filterCommands m }, TeaCmd.none)
  else if key = "b".data then
    ({ m with runInBackground := ¬ m.runInBackground }, TeaCmd.none)
  else if key = "f".data then
    ({ m with currentMode := AppMode.filterInput, inputBuffer := m.filterText }, TeaCmd.none)
  else (m, TeaCmd.none)

/-- `update.go` `handleExecutionKeyPress`: exit keys leave the execution view
resetting the scroll position (but not the sink offset), the remaining keys
scroll within `[0, maxScroll]` where `maxScroll = max 0 (totalLines −
visibleLines)` and `visibleLines = max 5 (height − 10)`. -/
def handleExecutionKeyPress (key : Str) (m : UIModel) : UIModel × TeaCmd :=
  let totalLines : Int := (splitOnChar '\n' m.executionOutput).length
  let visibleLines : Int := if m.height - 10 < 5 then 5 else m.height - 10
  let maxScroll : Int :=
    if totalLines - visibleLines < 0 then 0 else totalLines - visibleLines
  if key = "esc".data ∨ key = "q".data ∨ key = "enter".data then
    ({ m with
        executing := false
        executingCommand := Option.none
        outputScrollPosition := 0 }, TeaCmd.none)
  else if key = "up".data ∨ key = "k".data then
    (if m.outputScrollPosition > 0 then
       { m with outputScrollPosition := m.outputScrollPosition - 1 }
     else m, TeaCmd.none)
  else if key = "down".data ∨ key = "j".data then
    (if m.outputScrollPosition < maxScroll then
       { m with outputScrollPosition := m.outputScrollPosition + 1 }
     else m, TeaCmd.none)
  else if key = "pgup".data then
    let pageSize := if visibleLines - 2 < 1 then 1 else visibleLines - 2
    let p := m.outputScrollPosition - pageSize
    ({ m with outputScrollPosition := if p < 0 then 0 else p }, TeaCmd.none)
  else if key = "pgdown".data then
    let pageSize := if visibleLines - 2 < 1 then 1 else visibleLines - 2
    let p := m.outputScrollPosition + pageSize
    ({ m with outputScrollPosition := if p > maxScroll then maxScroll else p }, TeaCmd.none)
  else if key = "home".data then
    ({ m with outputScrollPosition := 0 }, TeaCmd.none)
  else if key = "end".data then
    ({ m with outputScrollPosition := maxScroll }, TeaCmd.none)
  else (m, TeaCmd.none)

/-- `update.go` `handleHelpKeyPress`. -/
def handleHelpKeyPress (key : Str) (m : UIModel) : UIModel × TeaCmd :=
  if key = "esc".data ∨ key = "h".data then
    ({ m with showHelp := false }, TeaCmd.none)
  else (m, TeaCmd.none)

/-- `update.go` `handleFormFieldEdit`: editing one form field. -/
def handleFormFieldEdit (key : Str) (m : UIModel) : UIModel × TeaCmd :=
  if key = "esc".data then
    ({ m with editingFormField := false, formInputBuffer := [] }, TeaCmd.none)
  else if key = "enter".data then
    let m := setFormFieldValue m m.activeFormField m.formInputBuffer
    let m := { m with editingFormField := false, formInputBuffer := [] }
    (if m.activeFormField < fieldCount - 1 then
       { m with activeFormField := m.activeFormField + 1 }
     else m, TeaCmd.none)
  else if key = "backspace".data then
    (if m.formInputBuffer.length > 0 then
       { m with formInputBuffer := m.formInputBuffer.dropLast }
     else m, TeaCmd.none)
  else if key = "ctrl+u".data then ({ m with formInputBuffer := [] }, TeaCmd.none)
  else if key = "ctrl+a".data then ({ m with formInputBuffer := [] }, TeaCmd.none)
  else if key = "ctrl+e".data then (m, TeaCmd.none)
  else if key = "tab".data then
    let m := setFormFieldValue m m.activeFormField m.formInputBuffer
    let m := { m with editingFormField := false, formInputBuffer := [] }
    ({ m with activeFormField := (m.activeFormField + 1) % fieldCount }, TeaCmd.none)
  else if key = "shift+tab".data then
    let m := setFormFieldValue m m.activeFormField m.formInputBuffer
    let m := { m with editingFormField := false, formInputBuffer := [] }
    (if m.activeFormField = 0 then { m with activeFormField := fieldCount - 1 }
     else { m with activeFormField := m.activeFormField - 1 }, TeaCmd.none)
  else if key = "up".data ∨ key = "down".data ∨ key = "left".data ∨ key = "right".data then
    (m, TeaCmd.none)
  else if key.length = 1 ∨ key = "space".data then
    (if key = "space".data then { m with formInputBuffer := m.formInputBuffer ++ [' '] }
     else { m with formInputBuffer := m.formInputBuffer ++ key }, TeaCmd.none)
  else (m, TeaCmd.none)

/-- `update.go` `handleFormKeyPress`: form navigation, field editing entry,
save and cancel. -/
def handleFormKeyPress (env : UIEnv) (key : Str) (m : UIModel) : UIModel × TeaCmd :=
  if m.editingFormField then handleFormFieldEdit key m
  else if key = "esc".data then ({ m with showForm := false }, TeaCmd.none)
  else if key = "enter".data then
    ({ m with
        editingFormField := true
        formInputBuffer := getFormFieldValue m m.activeFormField }, TeaCmd.none)
  else if key = "y".data then saveFormCommand env m
  else if key = "up".data ∨ key = "k".data then
    (if m.activeFormField > 0 then { m with activeFormField := m.activeFormField - 1 }
     else m, TeaCmd.none)
  else if key = "down".data ∨ key = "j".data then
    (if m.activeFormField < fieldCount - 1 then
       { m with activeFormField := m.activeFormField + 1 }
     else m, TeaCmd.none)
  else if key = "tab".data then
    ({ m with activeFormField := (m.activeFormField + 1) % fieldCount }, TeaCmd.none)
  else if key = "shift+tab".data then
    (if m.activeFormField = 0 then { m with activeFormField := fieldCount - 1 }
     else { m with activeFormField := m.activeFormField - 1 }, TeaCmd.none)
  else (m, TeaCmd.none)

/-- `update.go` `handleFilterInputMode`: live filter editing. -/
def handleFilterInputMode (key : Str) (m : UIModel) : UIModel × TeaCmd :=
  if key = "esc".data then ({ m with currentMode := AppMode.normal }, TeaCmd.none)
  else if key = "enter".data then
    let m := { m with filterText := m.inputBuffer }
    let m := { m with visibleCommands := filterCommands m }
    ({ m with currentMode := AppMode.normal, inputBuffer := [] }, TeaCmd.none)
  else if key = "backspace".data then
    (if m.inputBuffer.length > 0 then
       let m := { m with inputBuffer := m.inputBuffer.dropLast }
       let m := { m with filterText := m.inputBuffer }
       { m with visibleCommands := filterCommands m }
     else m, TeaCmd.none)
  else if key = "ctrl+u".data then
    let m := { m with inputBuffer := [], filterText := [] }
    ({ m with visibleCommands := filterCommands m }, TeaCmd.none)
  else if key.length = 1 ∨ key = "space".data then
    let m :=
      if key = "space".data then { m with inputBuffer := m.inputBuffer ++ [' '] }
      else { m with inputBuffer := m.inputBuffer ++ key }
    let m := { m with filterText := m.inputBuffer }
    ({ m with visibleCommands := filterCommands m }, TeaCmd.none)
  else (m, TeaCmd.none)

/-- `update.go` `handleKeyPress`: clears the error message first, then
dispatches to the mode-specific handler; `q`/ctrl+c quit globally and `h`
toggles help whenever the form is not shown. -/
def handleKeyPress (env : UIEnv) (key : Str) (m : UIModel) : UIModel × TeaCmd :=
  let m := { m with error := [] }
  if m.currentMode = AppMode.filterInput then handleFilterInputMode key m
  else if m.showForm ∧ m.editingFormField then handleFormFieldEdit key m
  else if key = "ctrl+c".data ∨ key = "q".data then (m, TeaCmd.quit)
  else if key = "h".data ∧ ¬ m.showForm then
    ({ m with showHelp := ¬ m.showHelp }, TeaCmd.none)
  else if m.executing then handleExecutionKeyPress key m
  else if m.showHelp then handleHelpKeyPress key m
  else if m.showForm then handleFormKeyPress env key m
  else handleMainKeyPress env key m

/-- `update.go` `executeCommand`: select a strategy by precedence
(background → detached goroutine against a fresh log file; Interactive on
macOS → external Terminal; otherwise streaming against a fresh temp sink
plus a polling tick).  Note the background log file and the temp sink are
created before the command text is ever examined. -/
def executeCommand (env : UIEnv) (command : Command) (m : UIModel) : UIModel × ExecEffect :=
  let m := { m with
    executing := true
    executingCommand := some command
    executionOutput := ("Executing command...").data
    outputScrollPosition := 0
    error := [] }
  if m.runInBackground then
    match env.createBackgroundLog command with
    | Except.error e =>
      ({ m with
          error := ("Failed to create background log: ").data ++ e
          executing := false
          executingCommand := Option.none
          executionOutput := [] }, ExecEffect.none)
    | Except.ok logPath =>
      ({ m with
          error := ("Background task started. Log: ").data ++ logPath
          executing := false
          executingCommand := Option.none
          executionOutput := [] }, ExecEffect.backgroundRun command logPath)
  else if command.interactive ∧ env.isDarwin then
    ({ m with
        executing := false
        executingCommand := Option.none
        executionOutput := [] }, ExecEffect.openTerminal command)
  else
    match env.createTemp with
    | Except.error e =>
      ({ m with
          error := ("Failed to create temp log: ").data ++ e
          executing := false
          executingCommand := Option.none }, ExecEffect.none)
    | Except.ok tmpPath =>
      ({ m with executionLogPath := tmpPath, executionLogOffset := 0 },
       ExecEffect.runAndPoll command tmpPath)

/-- `update.go` `handleCommandResult`: fold the sink's full content (read
from the beginning, `fileContent`) into the result, render the report, and
tear the session down. -/
def handleCommandResult (env : UIEnv) (result : Result) (fileContent : Str)
    (m : UIModel) : UIModel × TeaCmd :=
  let result := if m.executionLogPath ≠ [] then { result with output := fileContent } else result
  ({ m with
      executionOutput := FormatOutput env.timeHeader result
      executing := false
      executingCommand := Option.none
      executionLogPath := []
      executionLogOffset := 0 }, TeaCmd.none)

/-- `update.go` `handleStreamPoll`: while executing against a sink, read up
to 64 KiB starting at the last recorded offset of the sink's current content
(`Option.none` stands for a failed open), append the bytes delivered and
advance the offset by exactly that many; always schedule the next tick. -/
def handleStreamPoll (m : UIModel) (fileContent : Option Str) : UIModel × TeaCmd :=
  if m.executing = false ∨ m.executionLogPath = [] then (m, TeaCmd.none)
  else
    match fileContent with
    | Option.none => (m, TeaCmd.tick)
    | some content =>
      let chunk := (content.drop m.executionLogOffset).take 65536
      if chunk.length > 0 then
        ({ m with
            executionOutput := m.executionOutput ++ chunk
            executionLogOffset := m.executionLogOffset + chunk.length }, TeaCmd.tick)
      else (m, TeaCmd.tick)

/-!
Concrete sample environments and states used by the witnesses and
counterexamples below.
-/

/-- A concrete OS environment: no environment variables set (every lookup
returns the empty string, as `os.Getenv` does for unset variables), home
directory `/home/u`, current directory `/work`, every path an existing
directory, every process starting successfully and exiting cleanly with no
output. -/
def sampleExecEnv : ExecEnv where
  getenv := fun _ => []
  userHomeDir := Except.ok ("/home/u").data
  getwd := Except.ok ("/work").data
  statIsDir := fun _ => true
  run := fun _ _ => ⟨[], [], Option.none⟩
  start := fun _ _ => Option.none
  ptyStart := fun _ _ => Option.none

/-- A concrete collaborator environment: clock at Unix second 100, storage
always succeeding, no categories, fixed background-log and temp-file paths,
not macOS, empty time header. -/
def sampleUIEnv : UIEnv where
  nowUnix := 100
  saveConfig := fun _ => Option.none
  getCategories := fun _ => []
  createBackgroundLog := fun _ => Except.ok ("/logs/x.log").data
  createTemp := Except.ok ("/tmp/t.log").data
  isDarwin := false
  timeHeader := []

/-- A command whose text is empty but whose `UseShell` flag is set. -/
def emptyShellCommand : Command := { zeroCommand with useShell := true }

/-- A command with whitespace-only text and no flags. -/
def spacesCommand : Command := { zeroCommand with command := ("  ").data }

/-- A command with `Interactive` set but `UseShell` unset. -/
def interOnlyCommand : Command :=
  { zeroCommand with command := ("a b").data, interactive := true }

/-- A plain two-token command with neither flag set. -/
def plainCommand : Command := { zeroCommand with command := ("ls -l").data }

/-- A shell-mode command with non-empty text. -/
def shellCommand : Command :=
  { zeroCommand with command := ("echo hi | wc -c").data, useShell := true }

/-- A state in the middle of a streaming execution session: offset 7 into
the sink, scroll position 2, a stale error message. -/
def sampleExecutingModel : UIModel where
  allCommands := []
  visibleCommands := []
  categories := []
  selectedIndex := 0
  filterText := []
  activeCategory := []
  runInBackground := false
  showHelp := false
  showForm := false
  executing := true
  executionOutput := ("out").data
  executingCommand := some zeroCommand
  outputScrollPosition := 2
  formCommand := zeroCommand
  activeFormField := 0
  editingFormField := false
  formInputBuffer := []
  currentMode := AppMode.normal
  inputBuffer := []
  error := ("old").data
  width := 80
  height := 24
  executionLogPath := ("/tmp/t.log").data
  executionLogOffset := 7

/-- A catalog whose only record already carries the identifier `100`, and a
form holding a valid new record, saved when the clock reads Unix second 100:
the synthesised identifier collides. -/
def collisionModel : UIModel := { sampleExecutingModel with
  executing := false
  executionLogPath := []
  executionLogOffset := 0
  error := []
  allCommands :=
    [{ zeroCommand with id := ("100").data, name := ("old").data, command := ("x").data }]
  formCommand := { zeroCommand with name := ("n").data, command := ("c").data } }

/-- Like `collisionModel` but with a non-colliding existing identifier. -/
def appendModel : UIModel := { collisionModel with
  allCommands :=
    [{ zeroCommand with id := ("1").data, name := ("old").data, command := ("x").data }] }

/-!
Helper lemmas.
-/

/-- Every character of a string whose `trimSpace` is empty is white space. -/
theorem all_space_of_trimSpace_eq_nil {s : Str} (h : trimSpace s = []) :
    ∀ c ∈ s, isSpaceGo c := by
  unfold trimSpace at h
  rw [List.reverse_eq_nil_iff, List.dropWhile_eq_nil_iff] at h
  have h2 : ∀ x ∈ s.dropWhile isSpaceGo, isSpaceGo x := by
    intro x hx
    exact h x (List.mem_reverse.mpr hx)
  intro c hc
  rw [← List.takeWhile_append_dropWhile (p := isSpaceGo) (l := s)] at hc
  rcases List.mem_append.mp hc with h3 | h3
  · exact List.mem_takeWhile_imp h3
  · exact h2 c h3

/-- Folding `fieldsStep` over an all-white-space string yields no words. -/
theorem fieldsStep_foldr_all_space {s : Str} (h : ∀ c ∈ s, isSpaceGo c) :
    s.foldr fieldsStep ([], []) = ([], []) := by
  induction s with
  | nil => rfl
  | cons c rest ih =>
    have hc : isSpaceGo c := h c (List.mem_cons_self c rest)
    have hr : rest.foldr fieldsStep ([], []) = ([], []) := by
      exact ih (fun x hx => h x (List.mem_cons_of_mem c hx))
    simp [List.foldr, hr, fieldsStep, hc]

/-- Splitting a whitespace-only command text yields zero tokens. -/
theorem fieldsGo_eq_nil_of_trimSpace {s : Str} (h : trimSpace s = []) :
    fieldsGo s = [] := by
  unfold fieldsGo
  rw [fieldsStep_foldr_all_space (all_space_of_trimSpace_eq_nil h)]
  rfl

/-!
Claim C1.
-/

/-- Claim C1 (refuted, code bug): the claim says expanding the path
`${cwd}/sub` yields the resolver's current working directory followed by
`/sub`.  In the code, `os.ExpandEnv` runs first and substitutes the unset
environment variable `cwd` with the empty string, so the dedicated `${cwd}`
branch of `expandDirPlaceholders` never sees the token: with home `/home/u`
and current directory `/work` the expansion yields `/sub`, not `/work/sub`.
The `~/x` half of the claim does hold (`/home/u/x`). -/
theorem c1_cwd_placeholder_lost_eval :
    expandDirPlaceholders sampleExecEnv ("$\x7bcwd\x7d/sub").data =
      Except.ok ("/sub").data ∧
    expandDirPlaceholders sampleExecEnv ("~/x").data =
      Except.ok ("/home/u/x").data ∧
    sampleExecEnv.getwd = Except.ok ("/work").data ∧
    (Except.ok ("/sub").data : Except Str Str) ≠ Except.ok ("/work/sub").data := by
  refine ⟨by decide, by decide, by decide, by decide⟩

/-!
Claim C2.
-/

/-- Claim C2 counterexample: the claim says every strategy rejects empty
command text with a non-nil error and starts no process.  For a command with
empty text but `UseShell` set, `StartInteractiveProcess` and
`StartInteractivePTY` have no empty-command pre-check on the shell branch:
both hand the empty text to the shell and start a child process, returning
no error. -/
theorem c2_empty_command_counterexample :
    trimSpace emptyShellCommand.command = [] ∧
    (StartInteractiveProcess sampleExecEnv emptyShellCommand).2 = true ∧
    (StartInteractiveProcess sampleExecEnv emptyShellCommand).1 =
      Except.ok (CmdLine.shell ("bash").data [], []) ∧
    (StartInteractivePTY sampleExecEnv emptyShellCommand).2 = true ∧
    (StartInteractivePTY sampleExecEnv emptyShellCommand).1 =
      Except.ok (CmdLine.shell ("bash").data [], []) := by
  refine ⟨by decide, by decide, by decide, by decide, by decide⟩

/-- Claim C2 as amended: for empty or whitespace-only command text the
synchronous, streaming and terminal-attached strategies return exit code −1
with the empty-command error and start no process; the start-process and PTY
strategies do so only when neither `UseShell` nor `Interactive` is set; and
the background path creates its log file and spawns the detached run before
the command text is ever examined. -/
theorem c2_empty_command_amended (env : ExecEnv) (c : Command)
    (h : trimSpace c.command = []) :
    ExecuteCommand env c = (⟨c, [], some ExecError.emptyCommand, -1⟩, false) ∧
    ExecuteCommandStreaming env c = (⟨c, [], some ExecError.emptyCommand, -1⟩, false) ∧
    ExecuteCommandInteractiveAttached env c =
      (⟨c, [], some ExecError.emptyCommand, -1⟩, false) ∧
    (c.useShell = false → c.interactive = false →
      StartInteractiveProcess env c = (Except.error ExecError.emptyCommand, false) ∧
      StartInteractivePTY env c = (Except.error ExecError.emptyCommand, false)) ∧
    (∀ (uenv : UIEnv) (m : UIModel) (p : Str), m.runInBackground = true →
      uenv.createBackgroundLog c = Except.ok p →
      (executeCommand uenv c m).2 = ExecEffect.backgroundRun c p) := by
  refine ⟨?_, ?_, ?_, ?_, ?_⟩
  · simp [ExecuteCommand, h]
  · simp [ExecuteCommandStreaming, h]
  · simp [ExecuteCommandInteractiveAttached, h]
  · intro hu hi
    constructor
    · simp [StartInteractiveProcess, startProcCmdLine, hu, hi,
        fieldsGo_eq_nil_of_trimSpace h]
    · simp [StartInteractivePTY, ptyCmdLine, hu, hi,
        fieldsGo_eq_nil_of_trimSpace h]
  · intro uenv m p hbg hlog
    simp [executeCommand, hbg, hlog]

/-- Claim C2 witness: the amended theorem applied to the whitespace-only
command and the sample environment. -/
theorem c2_empty_command_witness :
    ExecuteCommand sampleExecEnv spacesCommand =
      (⟨spacesCommand, [], some ExecError.emptyCommand, -1⟩, false) :=
  (c2_empty_command_amended sampleExecEnv spacesCommand (by decide)).1

/-!
Claim C3.
-/

/-- Claim C3 counterexample: the claim says command-line construction is
identical across all strategies, using the shell when `UseShell` or
`Interactive` is set.  Synchronous capture consults only `UseShell`: for a
command with `Interactive` set and `UseShell` unset it splits the text into
argv tokens while the streaming construction hands it to the shell. -/
theorem c3_construction_counterexample :
    syncCmdLine sampleExecEnv interOnlyCommand =
      Except.ok (CmdLine.argv ("a").data [("b").data]) ∧
    streamCmdLine sampleExecEnv interOnlyCommand =
      Except.ok (CmdLine.shell ("bash").data ("a b").data) ∧
    syncCmdLine sampleExecEnv interOnlyCommand ≠
      streamCmdLine sampleExecEnv interOnlyCommand := by
  refine ⟨by decide, by decide, by decide⟩

/-- Claim C3 as amended: the streaming, terminal-attached, start-process and
PTY strategies share identical command-line construction (whole text to a
login shell — `SHELL`, defaulting to `bash` — when `UseShell` or
`Interactive` is set, otherwise whitespace-split with zero tokens an
empty-command error); synchronous capture follows the same scheme except
that it consults only `UseShell`, so it agrees with the others whenever
`Interactive` is unset (and whenever `UseShell` is set). -/
theorem c3_construction_amended (env : ExecEnv) (c : Command) :
    streamCmdLine env c = attachedCmdLine env c ∧
    streamCmdLine env c = startProcCmdLine env c ∧
    streamCmdLine env c = ptyCmdLine env c ∧
    (c.interactive = false → syncCmdLine env c = streamCmdLine env c) ∧
    (c.useShell = true → syncCmdLine env c = streamCmdLine env c) := by
  refine ⟨rfl, rfl, rfl, ?_, ?_⟩
  · intro h
    simp [syncCmdLine, streamCmdLine, h]
  · intro h
    simp [syncCmdLine, streamCmdLine, h]

/-- Claim C3 witness: the amended theorem applied to a plain two-token
command (whose `Interactive` flag is unset). -/
theorem c3_construction_witness :
    syncCmdLine sampleExecEnv plainCommand = streamCmdLine sampleExecEnv plainCommand :=
  (c3_construction_amended sampleExecEnv plainCommand).2.2.2.1 rfl

/-!
Claim C4.
-/

/-- Claim C4 counterexample: the claim says exit-view input (escape, enter
or quit) resets both the scroll position and the sink byte offset to zero.
In the middle of a session with offset 7, pressing escape leaves the offset
at 7 (only `handleCommandResult` resets it), and pressing `q` does not
return to Normal at all — it quits the program with `Executing` still
set. -/
theorem c4_exit_view_counterexample :
    (handleKeyPress sampleUIEnv ("esc").data sampleExecutingModel).1.executionLogOffset = 7 ∧
    ¬ (handleKeyPress sampleUIEnv ("esc").data sampleExecutingModel).1.executionLogOffset = 0 ∧
    (handleKeyPress sampleUIEnv ("esc").data sampleExecutingModel).1.executing = false ∧
    (handleKeyPress sampleUIEnv ("q").data sampleExecutingModel).1.executing = true ∧
    (handleKeyPress sampleUIEnv ("q").data sampleExecutingModel).2 = TeaCmd.quit := by
  refine ⟨by decide, by decide, by decide, by decide, by decide⟩

/-- Claim C4 as amended: while `Executing` (in normal input mode and not
editing a form field), escape or enter returns to Normal — `Executing`
cleared, the executing command dropped, the scroll position reset to zero
and the error message cleared by the key press — with every other field,
including the sink byte offset, the log path, the accumulated output, the
catalog, filter and categories, unchanged; quit (`q`/ctrl+c) instead exits
the program.  The offset and log path are reset only when the command
result arrives. -/
theorem c4_exit_view_amended (env : UIEnv) (key : Str) (m : UIModel)
    (hmode : m.currentMode = AppMode.normal)
    (hedit : m.showForm = false ∨ m.editingFormField = false)
    (hexec : m.executing = true)
    (hkey : key = ("esc").data ∨ key = ("enter").data) :
    handleKeyPress env key m =
      ({ m with
          executing := false
          executingCommand := Option.none
          outputScrollPosition := 0
          error := [] }, TeaCmd.none) := by
  rcases hkey with h | h <;> subst h <;> rcases hedit with he | he <;>
    simp [handleKeyPress, handleExecutionKeyPress, hmode, hexec, he]

/-- Claim C4 witness: the amended theorem applied to the sample executing
state and the enter key. -/
theorem c4_exit_view_witness :
    handleKeyPress sampleUIEnv ("enter").data sampleExecutingModel =
      ({ sampleExecutingModel with
          executing := false
          executingCommand := Option.none
          outputScrollPosition := 0
          error := [] }, TeaCmd.none) :=
  c4_exit_view_amended sampleUIEnv ("enter").data sampleExecutingModel rfl
    (Or.inl rfl) rfl (Or.inr rfl)

/-!
Claim C5.
-/

/--`Nat.toDigitsCore` never turns a non-empty accumulator empty. -/
theorem toDigitsCore_ne_nil (b : Nat) : ∀ (f n : Nat) (acc : List Char),
    acc ≠ [] → Nat.toDigitsCore b f n acc ≠ [] := by
  intro f
  induction f with
  | zero => intro n acc h; exact h
  | succ f ih =>
    intro n acc h
    rw [Nat.toDigitsCore]
    split
    · exact List.cons_ne_nil _ _
    · exact ih _ _ (List.cons_ne_nil _ _)

/-- The decimal rendering of a natural number is never empty. -/
theorem toString_nat_ne_nil (n : Nat) : (toString n).data ≠ [] := by
  show Nat.toDigits 10 n ≠ []
  unfold Nat.toDigits
  rw [Nat.toDigitsCore]
  split
  · exact List.cons_ne_nil _ _
  · exact toDigitsCore_ne_nil 10 _ _ _ (List.cons_ne_nil _ _)

/-- The replace-or-append loop leaves a catalog with no matching identifier
unchanged and reports the record as not found. -/
theorem replaceFirstById_not_found (target : Command) (l : List Command)
    (h : ∀ cmd ∈ l, cmd.id ≠ target.id) : replaceFirstById target l = (l, false) := by
  induction l with
  | nil => rfl
  | cons c rest ih =>
    have hc : c.id ≠ target.id := h c (List.mem_cons_self c rest)
    simp [replaceFirstById, hc, ih (fun x hx => h x (List.mem_cons_of_mem c hx))]

/-- Claim C5 counterexample: the claim says saving a valid record with empty
ID assigns an identifier distinct from all existing identifiers and appends
exactly one record.  The code derives the identifier from the clock
(`time.Now().Unix()`); when an existing record already carries that decimal
timestamp — here `100` at Unix second 100 — the new record replaces it
instead of being appended, and the catalog length stays 1. -/
theorem c5_save_counterexample :
    collisionModel.formCommand.id = [] ∧
    collisionModel.formCommand.name ≠ [] ∧
    collisionModel.formCommand.command ≠ [] ∧
    collisionModel.allCommands.length = 1 ∧
    (saveFormCommand sampleUIEnv collisionModel).1.allCommands.length = 1 := by
  refine ⟨by decide, by decide, by decide, by decide, by decide⟩

/-- Claim C5 as amended: saving with an empty name or empty command text
leaves the state unchanged apart from the validation error message; saving a
valid record with empty ID assigns the decimal Unix timestamp as its
identifier (always non-empty), and — provided no existing record already
carries that identifier — appends exactly one record to the catalog. -/
theorem c5_save_amended (env : UIEnv) (m : UIModel) :
    ((m.formCommand.name = [] ∨ m.formCommand.command = []) →
      saveFormCommand env m =
        ({ m with error := ("Name and Command are required fields").data }, TeaCmd.none)) ∧
    (m.formCommand.name ≠ [] → m.formCommand.command ≠ [] → m.formCommand.id = [] →
      (∀ cmd ∈ m.allCommands, cmd.id ≠ (toString env.nowUnix).data) →
      ∃ rec : Command,
        (saveFormCommand env m).1.allCommands = m.allCommands ++ [rec] ∧
        rec.id = (toString env.nowUnix).data ∧
        rec.id ≠ [] ∧
        (saveFormCommand env m).1.allCommands.length = m.allCommands.length + 1) := by
  constructor
  · intro h
    unfold saveFormCommand
    rw [if_pos h]
  · intro h1 h2 h3 hid
    have hrep : ∀ (target : Command), target.id = (toString env.nowUnix).data →
        replaceFirstById target m.allCommands = (m.allCommands, false) := by
      intro t ht
      apply replaceFirstById_not_found
      intro cmd hc
      rw [ht]
      exact hid cmd hc
    unfold saveFormCommand
    rw [if_neg (not_or.mpr ⟨h1, h2⟩), if_pos h3]
    simp only []
    by_cases hcat : m.formCommand.category = [] <;>
      by_cases htags : m.formCommand.tags = [] <;>
      simp [hcat, htags, hrep] <;>
      split <;>
      exact ⟨_, rfl, rfl, toString_nat_ne_nil env.nowUnix, by simp⟩

/-- Claim C5 witness: the amended theorem applied to the sample state whose
existing identifier `1` does not collide with the clock's `100`. -/
theorem c5_save_witness :
    (saveFormCommand sampleUIEnv appendModel).1.allCommands.length =
      appendModel.allCommands.length + 1 := by
  obtain ⟨rec, -, -, -, hlen⟩ :=
    (c5_save_amended sampleUIEnv appendModel).2 (by decide) (by decide) (by decide) (by decide)
  exact hlen

/-!
Claim C6.
-/

/-- The input events the scroll-clamping claim ranges over. -/
def scrollKeys : List Str :=
  [("up").data, ("down").data, ("pgup").data, ("pgdown").data, ("home").data, ("end").data]

/-- One scroll key preserves the output text, the height, and the scroll
bounds `0 ≤ position ≤ max 0 (totalLines − visibleLines)` with
`visibleLines = max 5 (height − 10)`. -/
theorem scroll_step_inv (k : Str) (m : UIModel) (hk : k ∈ scrollKeys)
    (h0 : 0 ≤ m.outputScrollPosition)
    (h1 : m.outputScrollPosition ≤
      max 0 (((splitOnChar '\n' m.executionOutput).length : Int) - max 5 (m.height - 10))) :
    ((handleExecutionKeyPress k m).1.executionOutput = m.executionOutput ∧
     (handleExecutionKeyPress k m).1.height = m.height) ∧
    (0 ≤ (handleExecutionKeyPress k m).1.outputScrollPosition ∧
     (handleExecutionKeyPress k m).1.outputScrollPosition ≤
      max 0 (((splitOnChar '\n' m.executionOutput).length : Int) - max 5 (m.height - 10))) := by
  fin_cases hk <;>
    simp [handleExecutionKeyPress] <;>
    split_ifs <;>
    simp_all <;>
    omega

/-- Any sequence of scroll keys keeps the scroll position within the bounds
computed from the starting state's output and height. -/
theorem scroll_fold_inv (ks : List Str) : ∀ (m : UIModel),
    (∀ k ∈ ks, k ∈ scrollKeys) →
    0 ≤ m.outputScrollPosition →
    m.outputScrollPosition ≤
      max 0 (((splitOnChar '\n' m.executionOutput).length : Int) - max 5 (m.height - 10)) →
    (0 ≤ (ks.foldl (fun m k => (handleExecutionKeyPress k m).1) m).outputScrollPosition ∧
     (ks.foldl (fun m k => (handleExecutionKeyPress k m).1) m).outputScrollPosition ≤
      max 0 (((splitOnChar '\n' m.executionOutput).length : Int) - max 5 (m.height - 10))) := by
  induction ks with
  | nil => intro m _ h0 h1; exact ⟨h0, h1⟩
  | cons k rest ih =>
    intro m hks h0 h1
    have hk : k ∈ scrollKeys := hks k (List.mem_cons_self k rest)
    have step := scroll_step_inv k m hk h0 h1
    have hrest := ih ((handleExecutionKeyPress k m).1)
      (fun x hx => hks x (List.mem_cons_of_mem k hx))
      step.2.1 (by rw [step.1.1, step.1.2]; exact step.2.2)
    rw [List.foldl_cons]
    rw [step.1.1, step.1.2] at hrest
    exact hrest

/-- Claim C6: starting from scroll position 0 in the execution view, any
finite sequence of up/down/page-up/page-down/home/end events keeps the
scroll position `p` within `0 ≤ p ≤ max 0 (totalLines − visibleLines)`,
where `visibleLines = max 5 (height − 10)` (terminal height minus the fixed
chrome allowance of 10 with a floor of 5); and each page move changes the
position by `visibleLines − 2`, clamped to those bounds. -/
theorem c6_scroll_clamped (m : UIModel) (ks : List Str)
    (hstart : m.outputScrollPosition = 0)
    (hkeys : ∀ k ∈ ks, k ∈ scrollKeys) :
    (0 ≤ (ks.foldl (fun m k => (handleExecutionKeyPress k m).1) m).outputScrollPosition ∧
     (ks.foldl (fun m k => (handleExecutionKeyPress k m).1) m).outputScrollPosition ≤
       max 0 (((splitOnChar '\n' m.executionOutput).length : Int) - max 5 (m.height - 10))) ∧
    (∀ m2 : UIModel,
      (handleExecutionKeyPress ("pgdown").data m2).1.outputScrollPosition =
        min (m2.outputScrollPosition + (max 5 (m2.height - 10) - 2))
            (max 0 (((splitOnChar '\n' m2.executionOutput).length : Int) - max 5 (m2.height - 10))) ∧
      (handleExecutionKeyPress ("pgup").data m2).1.outputScrollPosition =
        max (m2.outputScrollPosition - (max 5 (m2.height - 10) - 2)) 0) := by
  constructor
  · exact scroll_fold_inv ks m hkeys (by omega) (by simp [hstart])
  · intro m2
    constructor
    · simp [handleExecutionKeyPress]
      split_ifs <;> simp_all <;> omega
    · simp [handleExecutionKeyPress]
      split_ifs <;> simp_all <;> omega

/-- A state at the start of the execution view (scroll position 0). -/
def scrollStartModel : UIModel :=
  { sampleExecutingModel with
      outputScrollPosition := 0
      executionOutput := ("a\nb\nc\nd\ne\nf\ng\nh\ni\nj\nk\nl\nm\nn\no\np").data
      height := 20 }

/-- Claim C6 witness: the clamping theorem applied to a sixteen-line output,
height 20 and the key sequence down, pgdown, end, up, pgup, home, down. -/
theorem c6_scroll_witness :
    0 ≤ (([("down").data, ("pgdown").data, ("end").data, ("up").data, ("pgup").data,
           ("home").data, ("down").data].foldl
            (fun m k => (handleExecutionKeyPress k m).1) scrollStartModel)).outputScrollPosition ∧
    (([("down").data, ("pgdown").data, ("end").data, ("up").data, ("pgup").data,
       ("home").data, ("down").data].foldl
        (fun m k => (handleExecutionKeyPress k m).1) scrollStartModel)).outputScrollPosition ≤
      max 0 (((splitOnChar '\n' scrollStartModel.executionOutput).length : Int) -
        max 5 (scrollStartModel.height - 10)) :=
  (c6_scroll_clamped scrollStartModel
    [("down").data, ("pgdown").data, ("end").data, ("up").data, ("pgup").data,
     ("home").data, ("down").data] rfl (by decide)).1

/-!
Claim C7.
-/

/-- One poll tick against a sink whose current content is a prefix of the
eventual content `fin` preserves the session (executing flag and log path),
keeps the accumulated output equal to the initial output followed by the
first `offset` bytes of `fin`, and keeps the offset within `fin`. -/
theorem poll_step_inv (fin out0 : Str) (m : UIModel) (c : Str)
    (hc : c <+: fin)
    (hexec : m.executing = true) (hpath : m.executionLogPath ≠ [])
    (hout : m.executionOutput = out0 ++ fin.take m.executionLogOffset)
    (hoff : m.executionLogOffset ≤ fin.length) :
    (handleStreamPoll m (some c)).1.executing = true ∧
    (handleStreamPoll m (some c)).1.executionLogPath = m.executionLogPath ∧
    (handleStreamPoll m (some c)).1.executionOutput =
      out0 ++ fin.take (handleStreamPoll m (some c)).1.executionLogOffset ∧
    (handleStreamPoll m (some c)).1.executionLogOffset ≤ fin.length := by
  have hguard : ¬(m.executing = false ∨ m.executionLogPath = []) := by
    simp [hexec, hpath]
  unfold handleStreamPoll
  rw [if_neg hguard]
  simp only []
  by_cases hchunk : ((c.drop m.executionLogOffset).take 65536).length > 0
  · rw [if_pos hchunk]
    obtain ⟨t, ht⟩ := hc
    have hofflt : m.executionLogOffset ≤ c.length := by
      by_contra hlt
      push_neg at hlt
      have hnil : c.drop m.executionLogOffset = [] :=
        List.drop_eq_nil_of_le (le_of_lt hlt)
      rw [hnil] at hchunk
      simp at hchunk
    have hdrop : fin.drop m.executionLogOffset =
        c.drop m.executionLogOffset ++ t := by
      rw [← ht, List.drop_append_eq_append_drop, Nat.sub_eq_zero_of_le hofflt]
      rfl
    have hpre2 : (c.drop m.executionLogOffset).take 65536 ++
        ((c.drop m.executionLogOffset).drop 65536 ++ t) =
        fin.drop m.executionLogOffset := by
      rw [hdrop, ← List.append_assoc, List.take_append_drop]
    have hchunk_take : (c.drop m.executionLogOffset).take 65536 =
        (fin.drop m.executionLogOffset).take
          ((c.drop m.executionLogOffset).take 65536).length := by
      rw [← hpre2, List.take_left]
    have hlen : ((c.drop m.executionLogOffset).take 65536).length ≤
        fin.length - m.executionLogOffset := by
      have hl := congrArg List.length hpre2
      simp only [List.length_append, List.length_drop] at hl
      omega
    refine ⟨hexec, rfl, ?_, ?_⟩
    · show m.executionOutput ++ (c.drop m.executionLogOffset).take 65536 =
        out0 ++ fin.take (m.executionLogOffset +
          ((c.drop m.executionLogOffset).take 65536).length)
      rw [hout, List.append_assoc, List.take_add, ← hchunk_take]
    · show m.executionLogOffset +
        ((c.drop m.executionLogOffset).take 65536).length ≤ fin.length
      omega
  · rw [if_neg hchunk]
    exact ⟨hexec, rfl, hout, hoff⟩

/-- Folding any sequence of poll ticks whose observed contents are prefixes
of the eventual sink content `fin` preserves the session and the output
invariant of `poll_step_inv`. -/
theorem poll_fold_inv (fin out0 : Str) (contents : List Str) : ∀ (m : UIModel),
    (∀ c ∈ contents, c <+: fin) →
    m.executing = true → m.executionLogPath ≠ [] →
    m.executionOutput = out0 ++ fin.take m.executionLogOffset →
    m.executionLogOffset ≤ fin.length →
    ((contents.foldl (fun m c => (handleStreamPoll m (some c)).1) m).executing = true ∧
     (contents.foldl (fun m c => (handleStreamPoll m (some c)).1) m).executionLogPath =
       m.executionLogPath) ∧
    ((contents.foldl (fun m c => (handleStreamPoll m (some c)).1) m).executionOutput =
      out0 ++ fin.take
        (contents.foldl (fun m c => (handleStreamPoll m (some c)).1) m).executionLogOffset ∧
     (contents.foldl (fun m c => (handleStreamPoll m (some c)).1) m).executionLogOffset ≤
       fin.length) := by
  induction contents with
  | nil => intro m _ he hp ho hf; exact ⟨⟨he, rfl⟩, ho, hf⟩
  | cons c rest ih =>
    intro m hpre he hp ho hf
    have hc : c <+: fin := hpre c (List.mem_cons_self c rest)
    have step := poll_step_inv fin out0 m c hc he hp ho hf
    have hrest := ih ((handleStreamPoll m (some c)).1)
      (fun x hx => hpre x (List.mem_cons_of_mem c hx))
      step.1 (by rw [step.2.1]; exact hp) step.2.2.1 step.2.2.2
    rw [List.foldl_cons]
    refine ⟨⟨hrest.1.1, ?_⟩, hrest.2⟩
    rw [hrest.1.2, step.2.1]

/-- Claim C7: across a streaming session starting at offset 0, the
concatenation of the bytes delivered by successive poll ticks (each reading
the sink, whose successive contents are prefixes of its eventual content
`fin`, from the last recorded offset and advancing it by exactly the bytes
delivered) equals the prefix `fin.take offset` of the sink content; the
offset never exceeds the sink; the bytes every poll observed form a prefix
of `fin`; and the finalizing read folds the full sink content `fin` into the
displayed result, a superset of what any poll tick observed. -/
theorem c7_streaming_monotone (m : UIModel) (contents : List Str) (fin : Str)
    (hexec : m.executing = true) (hpath : m.executionLogPath ≠ [])
    (hoff : m.executionLogOffset = 0)
    (hpre : ∀ c ∈ contents, c <+: fin) :
    ((contents.foldl (fun m c => (handleStreamPoll m (some c)).1) m).executionOutput =
      m.executionOutput ++ fin.take
        (contents.foldl (fun m c => (handleStreamPoll m (some c)).1) m).executionLogOffset) ∧
    ((contents.foldl (fun m c => (handleStreamPoll m (some c)).1) m).executionLogOffset ≤
      fin.length) ∧
    (fin.take
      (contents.foldl (fun m c => (handleStreamPoll m (some c)).1) m).executionLogOffset <+:
      fin) ∧
    (∀ (env : UIEnv) (result : Result),
      (handleCommandResult env result fin
        (contents.foldl (fun m c => (handleStreamPoll m (some c)).1) m)).1.executionOutput =
        FormatOutput env.timeHeader { result with output := fin }) := by
  have h := poll_fold_inv fin m.executionOutput contents m hpre hexec hpath
    (by rw [hoff]; simp) (by rw [hoff]; omega)
  refine ⟨h.2.1, h.2.2, ?_, ?_⟩
  · exact ⟨fin.drop _, List.take_append_drop _ fin⟩
  · intro env result
    have hp2 : (contents.foldl (fun m c => (handleStreamPoll m (some c)).1) m).executionLogPath ≠
        [] := by
      rw [h.1.2]
      exact hpath
    unfold handleCommandResult
    rw [if_pos hp2]

/-- A state at the start of a streaming session (offset 0). -/
def pollStartModel : UIModel := { sampleExecutingModel with executionLogOffset := 0 }

/-- Claim C7 witness: the monotonicity theorem applied to two poll reads
(`ab` then `abcd`) of a sink that eventually holds `abcde`. -/
theorem c7_streaming_witness :
    (([("ab").data, ("abcd").data].foldl
        (fun m c => (handleStreamPoll m (some c)).1) pollStartModel)).executionOutput =
      pollStartModel.executionOutput ++ ("abcde").data.take
        (([("ab").data, ("abcd").data].foldl
          (fun m c => (handleStreamPoll m (some c)).1) pollStartModel)).executionLogOffset :=
  (c7_streaming_monotone pollStartModel [("ab").data, ("abcd").data] ("abcde").data
    rfl (by decide) rfl (by decide)).1

/-!
Claim C8.
-/

/-- The claim's uniform exit-code derivation: 0 when no error, the child's
reported status on a process exit error, −1 on any other error (including
the empty-command and path errors). -/
def exitCodeSpec (err : Option ExecError) : Int :=
  match err with
  | Option.none => 0
  | some (ExecError.runFailure (RunError.exit k)) => k
  | some _ => -1

/-- A command-line construction error is always the empty-command error
(`syncCmdLine`). -/
theorem syncCmdLine_error (env : ExecEnv) (c : Command) (e : ExecError)
    (h : syncCmdLine env c = Except.error e) : e = ExecError.emptyCommand := by
  unfold syncCmdLine at h
  split at h
  · exact absurd h (by simp)
  · split at h
    · cases h
      rfl
    · exact absurd h (by simp)

/-- A command-line construction error is always the empty-command error
(`streamCmdLine`). -/
theorem streamCmdLine_error (env : ExecEnv) (c : Command) (e : ExecError)
    (h : streamCmdLine env c = Except.error e) : e = ExecError.emptyCommand := by
  unfold streamCmdLine at h
  split at h
  · exact absurd h (by simp)
  · split at h
    · cases h
      rfl
    · exact absurd h (by simp)

/-- A command-line construction error is always the empty-command error
(`attachedCmdLine`). -/
theorem attachedCmdLine_error (env : ExecEnv) (c : Command) (e : ExecError)
    (h : attachedCmdLine env c = Except.error e) : e = ExecError.emptyCommand := by
  unfold attachedCmdLine at h
  split at h
  · exact absurd h (by simp)
  · split at h
    · cases h
      rfl
    · exact absurd h (by simp)

/-- Claim C8: exit-code derivation is uniform across the three
result-returning strategies — the result's exit code is 0 on clean exit, the
child's reported status when `cmd.Run` reports a process exit error, and −1
for every other error (not-an-exit-error failures, empty command text, and
working-directory errors). -/
theorem c8_exit_code_uniform (env : ExecEnv) (c : Command) :
    (ExecuteCommand env c).1.exitCode = exitCodeSpec (ExecuteCommand env c).1.error ∧
    (ExecuteCommandStreaming env c).1.exitCode =
      exitCodeSpec (ExecuteCommandStreaming env c).1.error ∧
    (ExecuteCommandInteractiveAttached env c).1.exitCode =
      exitCodeSpec (ExecuteCommandInteractiveAttached env c).1.error := by
  refine ⟨?_, ?_, ?_⟩
  · unfold ExecuteCommand
    split
    · rfl
    · split
      · rename_i e he
        rw [syncCmdLine_error env c e he]
        rfl
      · split
        · rfl
        · simp only []
          rcases (env.run _ _).err with - | e2
          · rfl
          · cases e2 <;> rfl
  · unfold ExecuteCommandStreaming
    split
    · rfl
    · split
      · rename_i e he
        rw [streamCmdLine_error env c e he]
        rfl
      · split
        · rfl
        · simp only []
          rcases (env.run _ _).err with - | e2
          · rfl
          · cases e2 <;> rfl
  · unfold ExecuteCommandInteractiveAttached
    split
    · rfl
    · split
      · rename_i e he
        rw [attachedCmdLine_error env c e he]
        rfl
      · split
        · rfl
        · simp only []
          rcases (env.run _ _).err with - | e2
          · rfl
          · cases e2 <;> rfl

/-!
Claim C9.
-/

/-- Claim C9: for a successfully set-up synchronous capture, the result's
output is stdout followed by stderr, with a separating newline inserted if
and only if stdout and stderr are both non-empty. -/
theorem c9_output_concatenation (base : ExecEnv) (c : Command) (so se d : Str)
    (e : Option RunError)
    (hne : trimSpace c.command ≠ [])
    (hsh : c.useShell = true)
    (hdir : resolveWorkingDir { base with run := fun _ _ => ⟨so, se, e⟩ } c = Except.ok d) :
    (ExecuteCommand { base with run := fun _ _ => ⟨so, se, e⟩ } c).1.output =
      (if se = [] then so else if so = [] then se else so ++ "\n".data ++ se) := by
  unfold ExecuteCommand
  rw [if_neg hne]
  simp only [syncCmdLine, hsh, if_true, hdir]
  show combineOutput so se = _
  unfold combineOutput
  by_cases h1 : se = []
  · simp [h1]
  · have h2 : se.length > 0 := List.length_pos.mpr h1
    rw [if_pos h2, if_neg h1]
    by_cases h3 : so = []
    · simp [h3]
    · simp [h3, List.append_assoc]

/-- Claim C9 witness: the concatenation theorem applied to stdout `a` and
stderr `b` under the sample environment. -/
theorem c9_output_witness :
    (ExecuteCommand { sampleExecEnv with
      run := fun _ _ => ⟨("a").data, ("b").data, Option.none⟩ } shellCommand).1.output =
      (if ("b").data = [] then ("a").data
       else if ("a").data = [] then ("b").data
       else ("a").data ++ "\n".data ++ ("b").data) :=
  c9_output_concatenation sampleExecEnv shellCommand ("a").data ("b").data []
    Option.none (by decide) rfl (by decide)

/-!
Claim C10.
-/

/-- Claim C10: every key press clears the error/status message before any
other handling — the transition's outcome is entirely independent of the
incoming error text, so any error or status message (including the
background-run message) survives at most until the next key press. -/
theorem c10_error_cleared_first (env : UIEnv) (key : Str) (m : UIModel) :
    handleKeyPress env key m = handleKeyPress env key { m with error := [] } :=
  rfl

end GoRecipe
